import Mathlib

/-!
Verification of the MSDS front-end rendering and orchestration logic.

The repository is a browser client: it submits a SMILES string to a backend
and renders the returned JSON report ("Safety Data Sheet") as collapsible
sections.  This development shallowly embeds the view logic that the
claims of the specification are about:

* `Value` — a JSON-decoded document value (the input type of the recursive
  renderer `renderValue` in the main component);
* `renderValue` — the recursive value renderer;
* the section-key filter/sort pipeline of `SDSDisplay`;
* the section skip rule (`if (!section || !section.data) return null`);
* `toggleSection` over the expand-state set;
* the `generateSDS` orchestration (guards, request issuance, error paths)
  and the non-2xx error-message computation of both clients.

JavaScript strings are modelled as Lean `String`s; the JS operations used by
the source (`trim`, `startsWith`, `replace` with a string pattern, `parseInt`)
are implemented over the underlying character lists so that all definitions
evaluate by kernel reduction.  JS string length is modelled as code-point
count (the source only compares lengths of ordinary ASCII text).
-/

/-- A JSON-decoded JavaScript value as seen by `renderValue`.  `vnull` and
`vundefined` are kept separate because the source tests them separately
(`value === null || value === undefined`).  Numbers are modelled as integers:
no claim depends on float formatting. -/
inductive Value where
  | vnull : Value
  | vundefined : Value
  | vstr : String → Value
  | vnum : Int → Value
  | vbool : Bool → Value
  | vlist : List Value → Value
  | vobj : List (String × Value) → Value

/-- The visual result of `renderValue`, one constructor per syntactic shape
of JSX the source returns.  `placeholderNotAvailable` is the muted
"Not available" span, `placeholderNoneListed` the muted "None listed" span,
`text` a plain string render, `longText` the whitespace-preserving block for
stringified values longer than 100 characters, `bulletList` the `<ul>` of
recursively rendered items, `labeledBlock` the indented per-key block for
objects, and `fallbackDump` the final `JSON.stringify` fallback (unreachable
for JSON-decoded input, kept to mirror the source). -/
inductive Rendered where
  | placeholderNotAvailable : Rendered
  | placeholderNoneListed : Rendered
  | text : String → Rendered
  | longText : String → Rendered
  | bulletList : List Rendered → Rendered
  | labeledBlock : List (String × Rendered) → Rendered
  | fallbackDump : String → Rendered

mutual

/-- The recursive value renderer of `SDSDisplay` (`renderValue` in the
source).  Branch order follows the source: the null/undefined/empty-string
check first, then primitives (with the length-100 formatting split), then
arrays (empty vs. bulleted), then objects.  The final
`JSON.stringify` fallback is unreachable: every JSON-decoded value falls in
one of the earlier branches. -/
def renderValue : Value → Rendered
  | Value.vnull => Rendered.placeholderNotAvailable
  | Value.vundefined => Rendered.placeholderNotAvailable
  | Value.vstr s =>
      if s = "" then Rendered.placeholderNotAvailable
      else if s.length > 100 then Rendered.longText s else Rendered.text s
  | Value.vnum n =>
      if (toString n).length > 100 then Rendered.longText (toString n)
      else Rendered.text (toString n)
  | Value.vbool b =>
      if (toString b).length > 100 then Rendered.longText (toString b)
      else Rendered.text (toString b)
  | Value.vlist items =>
      if items.isEmpty then Rendered.placeholderNoneListed
      else Rendered.bulletList (renderList items)
  | Value.vobj fields => Rendered.labeledBlock (renderEntries fields)

/-- Renders each element of a list value, in order (the `value.map` of the
array branch of the source). -/
def renderList : List Value → List Rendered
  | [] => []
  | v :: vs => renderValue v :: renderList vs

/-- Renders each key/value entry of an object value, in order (the
`Object.entries(value).map` of the object branch in the source). -/
def renderEntries : List (String × Value) → List (String × Rendered)
  | [] => []
  | (k, v) :: rest => (k, renderValue v) :: renderEntries rest

end

theorem renderList_eq_map (xs : List Value) : renderList xs = xs.map renderValue := by
  induction xs with
  | nil => simp [renderList]
  | cons v vs ih => simp [renderList, ih]

theorem renderEntries_eq_map (fs : List (String × Value)) :
    renderEntries fs = fs.map (fun kv => (kv.1, renderValue kv.2)) := by
  induction fs with
  | nil => simp [renderEntries]
  | cons kv rest ih => simp [renderEntries, ih]

/-- C1: `renderValue` is a pure, total function of its input: for every
JSON-decoded `Value` — null, undefined, string, number, boolean, array, or
object, to arbitrary finite nesting depth — it returns a `Rendered` result.
It is embedded as a Lean function `Value → Rendered`, so it can neither throw
nor have side effects; this theorem records that a result exists for every
input. -/
theorem renderValue_total (v : Value) : ∃ r : Rendered, renderValue v = r :=
  ⟨renderValue v, rfl⟩

/-- C2: rendering a list value yields the "None listed" placeholder exactly
when the list is empty; a non-empty list renders as a bulleted sequence whose
items are exactly the recursive renderings of the elements, one per element
and order-preserving (the item list is `xs.map renderValue`, so its length is
`xs.length` and its `i`-th entry renders `xs[i]`). -/
theorem renderValue_list_spec (xs : List Value) :
    (renderValue (Value.vlist xs) = Rendered.placeholderNoneListed ↔ xs = []) ∧
    (xs ≠ [] →
      renderValue (Value.vlist xs) = Rendered.bulletList (xs.map renderValue) ∧
      (xs.map renderValue).length = xs.length ∧
      ∀ i : Nat, (xs.map renderValue)[i]? = (xs[i]?).map renderValue) := by
  constructor
  · cases xs with
    | nil => simp [renderValue]
    | cons v vs => simp [renderValue]
  · intro hne
    refine ⟨?_, by simp, ?_⟩
    · cases xs with
      | nil => exact absurd rfl hne
      | cons v vs => simp [renderValue, renderList_eq_map]
    · intro i
      simp [List.getElem?_map]

/-- Closed instance of C2 at a concrete two-element list and at the empty
list, discharging the non-emptiness hypothesis of `renderValue_list_spec`. -/
theorem renderValue_list_spec_witness :
    renderValue (Value.vlist []) = Rendered.placeholderNoneListed ∧
    renderValue (Value.vlist [Value.vstr "Flammable", Value.vstr "Irritant"]) =
      Rendered.bulletList [Rendered.text "Flammable", Rendered.text "Irritant"] := by
  constructor
  · exact (renderValue_list_spec []).1.mpr rfl
  · have h := ((renderValue_list_spec [Value.vstr "Flammable", Value.vstr "Irritant"]).2
      (by simp)).1
    rw [h]
    simp [renderValue]
    all_goals decide

/-- C8: a null, undefined, or empty-string value renders as the muted
"Not available" placeholder. -/
theorem renderValue_empty_placeholder :
    renderValue Value.vnull = Rendered.placeholderNotAvailable ∧
    renderValue Value.vundefined = Rendered.placeholderNotAvailable ∧
    renderValue (Value.vstr "") = Rendered.placeholderNotAvailable := by
  refine ⟨?_, ?_, ?_⟩ <;> simp [renderValue]

/-- C10: a whitespace-only string is not treated as empty by `renderValue`:
every non-empty string (whitespace-only or not) renders as text, never as the
"Not available" placeholder; in particular the one-space string " " renders
as the primitive text " ". -/
theorem renderValue_whitespace_not_placeholder :
    (∀ s : String, s ≠ "" →
      renderValue (Value.vstr s) ≠ Rendered.placeholderNotAvailable) ∧
    renderValue (Value.vstr " ") = Rendered.text " " := by
  constructor
  · intro s hs
    simp only [renderValue, if_neg hs]
    split <;> simp
  · simp [renderValue]
    all_goals decide

/-- Closed instance of C10: the one-space string is non-empty, renders as
text, and is not the placeholder. -/
theorem renderValue_whitespace_witness :
    renderValue (Value.vstr " ") ≠ Rendered.placeholderNotAvailable ∧
    renderValue (Value.vstr " ") = Rendered.text " " :=
  ⟨renderValue_whitespace_not_placeholder.1 " " (by decide),
   renderValue_whitespace_not_placeholder.2⟩

/-- JS `String.prototype.trim()` over the underlying character list. -/
def jsTrim (s : String) : String :=
  String.mk (((s.data.dropWhile Char.isWhitespace).reverse.dropWhile
    Char.isWhitespace).reverse)

/-- JS `String.prototype.startsWith(pre)` over the underlying character
lists. -/
def jsStartsWith (s pre : String) : Bool :=
  pre.data.isPrefixOf s.data

/-- Removes the first occurrence of `pat` (JS `replace` with a string
pattern and empty replacement replaces only the first occurrence). -/
def removeFirstAux (pat : List Char) : List Char → List Char
  | [] => []
  | c :: cs =>
      if pat.isPrefixOf (c :: cs) then (c :: cs).drop pat.length
      else c :: removeFirstAux pat cs

/-- JS string replace with empty replacement: delete the first occurrence
of `pat` in `s`. -/
def jsReplaceFirst (s pat : String) : String :=
  String.mk (removeFirstAux pat.data s.data)

/-- Numeric value of a run of decimal digits. -/
def digitsToNat (ds : List Char) : Nat :=
  ds.foldl (fun a c => a * 10 + (c.toNat - 48)) 0

/-- Hexadecimal digit test for the `0x` branch of `parseInt`. -/
def isHexDigitChar (c : Char) : Bool :=
  c.isDigit || ('a' ≤ c && c ≤ 'f') || ('A' ≤ c && c ≤ 'F')

/-- Numeric value of a hexadecimal digit. -/
def hexDigitToNat (c : Char) : Nat :=
  if c.isDigit then c.toNat - 48
  else if 'a' ≤ c && c ≤ 'f' then c.toNat - 87
  else c.toNat - 55

/-- Numeric value of a run of hexadecimal digits. -/
def hexToNat (ds : List Char) : Nat :=
  ds.foldl (fun a c => a * 16 + hexDigitToNat c) 0

/-- JS `parseInt(s)` with no radix argument: skip leading whitespace, take an
optional sign, then either a `0x`/`0X` hexadecimal literal or a run of
decimal digits; `none` models the `NaN` result (no digits found). -/
def parseIntJS (s : String) : Option Int :=
  let t := s.data.dropWhile Char.isWhitespace
  let sign : Int := if t.head? = some '-' then -1 else 1
  let t1 := if t.head? = some '-' ∨ t.head? = some '+' then t.drop 1 else t
  if t1.take 2 = ['0', 'x'] ∨ t1.take 2 = ['0', 'X'] then
    let hs := (t1.drop 2).takeWhile isHexDigitChar
    if hs = [] then none else some (sign * (hexToNat hs : Int))
  else
    let ds := t1.takeWhile Char.isDigit
    if ds = [] then none else some (sign * (digitsToNat ds : Int))

/-- The numeric sort key of the comparator in `SDSDisplay`:
`parseInt` of the key with its first `Section` occurrence removed. -/
def sectionNum (k : String) : Option Int :=
  parseIntJS (jsReplaceFirst k "Section")

/-- The comparator `(a, b) => numA - numB` of `SDSDisplay`, as the boolean
"a sorts no later than b".  When either sort key is `NaN` the JS comparator
returns `NaN`, which `Array.prototype.sort` treats as `0` (the elements
compare equal), hence `true` in both directions. -/
def sectionLe (a b : String) : Bool :=
  match sectionNum a, sectionNum b with
  | some x, some y => decide (x ≤ y)
  | _, _ => true

/-- Stable insertion used by `sortSectionKeys`. -/
def insertSectionKey (x : String) : List String → List String
  | [] => [x]
  | y :: ys =>
      if sectionLe x y then x :: y :: ys else y :: insertSectionKey x ys

/-- `Array.prototype.sort` with the comparator of the source, modelled as a stable
insertion sort (the builtin is an engine-chosen stable comparison sort; any
stable sort realises it for a consistent comparator). -/
def sortSectionKeys : List String → List String
  | [] => []
  | x :: xs => insertSectionKey x (sortSectionKeys xs)

/-- The section-key pipeline of `SDSDisplay`:
`Object.keys(sdsData).filter(key => key.startsWith("Section")).sort(...)`. -/
def sectionKeyOrder (keys : List String) : List String :=
  sortSectionKeys (keys.filter (fun k => jsStartsWith k "Section"))

/-- A key matching the `Section<N>` naming pattern: the literal `Section`
followed by a non-empty run of decimal digits. -/
def isSectionPatternKey (k : String) : Bool :=
  jsStartsWith k "Section" && !(k.data.drop 7).isEmpty &&
    (k.data.drop 7).all Char.isDigit

theorem digit_not_whitespace (c : Char) (h : c.isDigit = true) :
    c.isWhitespace = false := by
  rcases Bool.eq_false_or_eq_true c.isWhitespace with hw | hw
  · exfalso
    have hv : c = ' ' ∨ c = '\t' ∨ c = '\r' ∨ c = '\n' := by
      simpa [Char.isWhitespace, or_assoc] using hw
    rcases hv with rfl | rfl | rfl | rfl <;> exact absurd h (by decide)
  · exact hw

theorem digit_ne_minus (c : Char) (h : c.isDigit = true) : c ≠ '-' := by
  intro h1; subst h1; exact absurd h (by decide)

theorem digit_ne_plus (c : Char) (h : c.isDigit = true) : c ≠ '+' := by
  intro h1; subst h1; exact absurd h (by decide)

theorem takeWhile_eq_self_of_all {p : Char → Bool} (l : List Char)
    (h : l.all p = true) : l.takeWhile p = l := by
  induction l with
  | nil => rfl
  | cons c cs ih =>
    simp only [List.all_cons, Bool.and_eq_true] at h
    simp [List.takeWhile_cons, h.1, ih h.2]

theorem take2_not_hex (d : Char) (tl : List Char) (hd : d.isDigit = true)
    (htl : tl.all Char.isDigit = true) :
    ¬ ((d :: tl).take 2 = ['0', 'x'] ∨ (d :: tl).take 2 = ['0', 'X']) := by
  cases tl with
  | nil => intro h; rcases h with h | h <;> simp [List.take] at h
  | cons e tl2 =>
    simp only [List.all_cons, Bool.and_eq_true] at htl
    intro h
    rcases h with h | h <;>
    · simp [List.take] at h
      obtain ⟨h1, h2⟩ := h
      subst h2
      exact absurd htl.1 (by decide)

theorem parseIntJS_digits (ds : List Char) (hne : ds ≠ [])
    (hall : ds.all Char.isDigit = true) :
    parseIntJS (String.mk ds) = some (digitsToNat ds : Int) := by
  obtain ⟨d, tl, rfl⟩ : ∃ d tl, ds = d :: tl := by
    cases ds with
    | nil => exact absurd rfl hne
    | cons d tl => exact ⟨d, tl, rfl⟩
  have hall' := hall
  simp only [List.all_cons, Bool.and_eq_true] at hall'
  obtain ⟨hd, htl⟩ := hall'
  unfold parseIntJS
  have hdrop : (d :: tl).dropWhile Char.isWhitespace = d :: tl := by
    simp [List.dropWhile_cons, digit_not_whitespace d hd]
  have hm : ¬ ((some d : Option Char) = some '-') := by
    simp [digit_ne_minus d hd]
  have hp : ¬ ((some d : Option Char) = some '+') := by
    simp [digit_ne_plus d hd]
  have hsign : ¬ ((some d : Option Char) = some '-' ∨
      (some d : Option Char) = some '+') := fun hc => hc.elim hm hp
  rw [hdrop]
  simp only [List.head?_cons]
  rw [if_neg hsign, if_neg hm]
  rw [if_neg (take2_not_hex d tl hd htl)]
  rw [takeWhile_eq_self_of_all (d :: tl) hall]
  rw [if_neg (List.cons_ne_nil d tl)]
  simp

theorem removeFirstAux_of_isPrefixOf (pat l : List Char) (hpat : pat ≠ [])
    (h : pat.isPrefixOf l = true) :
    removeFirstAux pat l = l.drop pat.length := by
  cases l with
  | nil =>
    cases pat with
    | nil => exact absurd rfl hpat
    | cons p ps => simp [List.isPrefixOf] at h
  | cons c cs => simp [removeFirstAux, h]

theorem sectionNum_pattern (k : String) (h : isSectionPatternKey k = true) :
    sectionNum k = some (digitsToNat (k.data.drop 7) : Int) := by
  simp only [isSectionPatternKey, Bool.and_eq_true] at h
  obtain ⟨⟨hpre, hne⟩, hdig⟩ := h
  have hrm : removeFirstAux "Section".data k.data = k.data.drop 7 := by
    have := removeFirstAux_of_isPrefixOf "Section".data k.data (by decide) hpre
    simpa using this
  have hne' : k.data.drop 7 ≠ [] := by
    simpa [List.isEmpty_iff] using hne
  unfold sectionNum jsReplaceFirst
  rw [hrm]
  exact parseIntJS_digits (k.data.drop 7) hne' hdig

theorem insertSectionKey_perm (x : String) (l : List String) :
    (insertSectionKey x l).Perm (x :: l) := by
  induction l with
  | nil => exact List.Perm.refl _
  | cons y ys ih =>
    by_cases h : sectionLe x y = true
    · simp [insertSectionKey, h]
    · simp only [insertSectionKey, if_neg h]
      exact (ih.cons y).trans (List.Perm.swap x y ys)

theorem sortSectionKeys_perm (l : List String) : (sortSectionKeys l).Perm l := by
  induction l with
  | nil => exact List.Perm.refl _
  | cons x xs ih =>
    exact (insertSectionKey_perm x (sortSectionKeys xs)).trans (ih.cons x)

theorem sectionLe_total (a b : String) :
    sectionLe a b = true ∨ sectionLe b a = true := by
  unfold sectionLe
  cases sectionNum a with
  | none => right; cases sectionNum b <;> rfl
  | some x =>
    cases sectionNum b with
    | none => left; rfl
    | some y =>
      rcases le_total x y with h | h
      · left; simpa using h
      · right; simpa using h

theorem sectionLe_trans_pattern {a b c : String}
    (ha : isSectionPatternKey a = true) (hb : isSectionPatternKey b = true)
    (hc : isSectionPatternKey c = true)
    (h1 : sectionLe a b = true) (h2 : sectionLe b c = true) :
    sectionLe a c = true := by
  have na := sectionNum_pattern a ha
  have nb := sectionNum_pattern b hb
  have nc := sectionNum_pattern c hc
  unfold sectionLe at h1 h2 ⊢
  rw [na, nb] at h1
  rw [nb, nc] at h2
  rw [na, nc]
  simp only [decide_eq_true_eq] at h1 h2 ⊢
  omega

theorem insertSectionKey_sorted (x : String)
    (hx : isSectionPatternKey x = true) (l : List String)
    (hl : ∀ k ∈ l, isSectionPatternKey k = true)
    (hs : l.Pairwise (fun a b => sectionLe a b = true)) :
    (insertSectionKey x l).Pairwise (fun a b => sectionLe a b = true) := by
  induction l with
  | nil => simp [insertSectionKey]
  | cons y ys ih =>
    have hy : isSectionPatternKey y = true := hl y (List.mem_cons_self y ys)
    have hys : ∀ k ∈ ys, isSectionPatternKey k = true := fun k hk =>
      hl k (List.mem_cons_of_mem y hk)
    rw [List.pairwise_cons] at hs
    obtain ⟨hyall, hsys⟩ := hs
    by_cases h : sectionLe x y = true
    · simp only [insertSectionKey, if_pos h]
      rw [List.pairwise_cons]
      refine ⟨?_, ?_⟩
      · intro z hz
        rcases List.mem_cons.mp hz with rfl | hz'
        · exact h
        · exact sectionLe_trans_pattern hx hy (hys z hz') h (hyall z hz')
      · rw [List.pairwise_cons]
        exact ⟨hyall, hsys⟩
    · simp only [insertSectionKey, if_neg h]
      rw [List.pairwise_cons]
      refine ⟨?_, ih hys hsys⟩
      intro z hz
      rcases List.mem_cons.mp ((insertSectionKey_perm x ys).mem_iff.mp hz)
        with rfl | hz'
      · rcases sectionLe_total z y with h1 | h1
        · exact absurd h1 h
        · exact h1
      · exact hyall z hz'

theorem sortSectionKeys_sorted (l : List String)
    (hl : ∀ k ∈ l, isSectionPatternKey k = true) :
    (sortSectionKeys l).Pairwise (fun a b => sectionLe a b = true) := by
  induction l with
  | nil => simp [sortSectionKeys]
  | cons x xs ih =>
    have hx : isSectionPatternKey x = true := hl x (List.mem_cons_self x xs)
    have hxs : ∀ k ∈ xs, isSectionPatternKey k = true := fun k hk =>
      hl k (List.mem_cons_of_mem x hk)
    have hmem : ∀ k ∈ sortSectionKeys xs, isSectionPatternKey k = true :=
      fun k hk => hxs k ((sortSectionKeys_perm xs).mem_iff.mp hk)
    exact insertSectionKey_sorted x hx (sortSectionKeys xs) hmem (ih hxs)

/-- C3: for every list of section keys matching the `Section<N>` naming
pattern, the section display orders them numerically ascending by the integer
suffix of the key (the output is a permutation of the input that is pairwise
ascending in the parsed suffix), not lexicographically; in particular the
keys `["Section10", "Section2", "Section1"]` render in the order
`Section1, Section2, Section10`. -/
theorem sectionKeyOrder_sorted (keys : List String)
    (h : ∀ k ∈ keys, isSectionPatternKey k = true) :
    (sectionKeyOrder keys).Perm keys ∧
    (sectionKeyOrder keys).Pairwise (fun a b =>
      ∃ x y : Int, sectionNum a = some x ∧ sectionNum b = some y ∧ x ≤ y) ∧
    sectionKeyOrder ["Section10", "Section2", "Section1"] =
      ["Section1", "Section2", "Section10"] := by
  have hfilter : keys.filter (fun k => jsStartsWith k "Section") = keys := by
    apply List.filter_eq_self.mpr
    intro k hk
    have hk' := h k hk
    simp only [isSectionPatternKey, Bool.and_eq_true] at hk'
    exact hk'.1.1
  refine ⟨?_, ?_, ?_⟩
  · unfold sectionKeyOrder
    rw [hfilter]
    exact sortSectionKeys_perm keys
  · unfold sectionKeyOrder
    rw [hfilter]
    have hmem : ∀ k ∈ sortSectionKeys keys, isSectionPatternKey k = true :=
      fun k hk => h k ((sortSectionKeys_perm keys).mem_iff.mp hk)
    refine List.Pairwise.imp_of_mem ?_ (sortSectionKeys_sorted keys h)
    intro a b hma hmb hab
    have na := sectionNum_pattern a (hmem a hma)
    have nb := sectionNum_pattern b (hmem b hmb)
    refine ⟨_, _, na, nb, ?_⟩
    unfold sectionLe at hab
    rw [na, nb] at hab
    simpa using hab
  · decide

/-- Closed instance of C3: the key list `["Section10", "Section2",
"Section1"]` satisfies the naming pattern and sorts to
`Section1, Section2, Section10`. -/
theorem sectionKeyOrder_sorted_witness :
    (sectionKeyOrder ["Section10", "Section2", "Section1"]).Perm
      ["Section10", "Section2", "Section1"] ∧
    sectionKeyOrder ["Section10", "Section2", "Section1"] =
      ["Section1", "Section2", "Section10"] :=
  ⟨(sectionKeyOrder_sorted ["Section10", "Section2", "Section1"]
      (by decide)).1,
   (sectionKeyOrder_sorted ["Section10", "Section2", "Section1"]
      (by decide)).2.2⟩

/-- A section of the Report Document: display title, the key/value `data`
mapping, optional source citations, optional notes.  `data = none` models a
missing or null `data` field (falsy in the skip test of the source);
`some entries` models a present object, possibly empty. -/
structure SDSSection where
  title : String
  data : Option (List (String × Value))
  data_sources : Option (List String) := none
  notes : Option (List String) := none

theorem lookup_mem_keys {β : Type} (doc : List (String × β)) (k : String)
    (v : β) (h : doc.lookup k = some v) : k ∈ doc.map Prod.fst := by
  induction doc with
  | nil => simp [List.lookup] at h
  | cons p t ih =>
    obtain ⟨a, b⟩ := p
    simp only [List.lookup] at h
    by_cases hk : k = a
    · subst hk
      simp [List.map_cons, List.mem_cons]
    · have hbeq : (k == a) = false := by simpa using hk
      rw [hbeq] at h
      simp only [List.map_cons, List.mem_cons]
      exact Or.inr (ih h)

theorem mem_sectionKeyOrder (keys : List String) (k : String) :
    k ∈ sectionKeyOrder keys ↔
      k ∈ keys ∧ jsStartsWith k "Section" = true := by
  unfold sectionKeyOrder
  rw [(sortSectionKeys_perm _).mem_iff, List.mem_filter]

/-- The section list actually rendered by `SDSDisplay`: the keys of the
Report Document are filtered to the `Section` prefix and sorted by the
comparator, then a section is skipped — `return null` — when the looked-up
section value or its `data` field is falsy
(`if (!section || !section.data) return null`). -/
def renderedSectionKeys (doc : List (String × Option SDSSection)) :
    List String :=
  (sectionKeyOrder (doc.map Prod.fst)).filter (fun k =>
    match doc.lookup k with
    | some (some sec) => sec.data.isSome
    | _ => false)

/-- C4: the section display renders a section for each Report Document key
matching the section-naming pattern whose `data` is present and non-empty,
and silently skips — renders nothing for, without erroring — every section
whose `data` field is missing, as well as every null section value. -/
theorem renderedSections_spec (doc : List (String × Option SDSSection)) :
    (∀ k sec d, doc.lookup k = some (some sec) →
      jsStartsWith k "Section" = true → sec.data = some d → d ≠ [] →
      k ∈ renderedSectionKeys doc) ∧
    (∀ k sec, doc.lookup k = some (some sec) → sec.data = none →
      k ∉ renderedSectionKeys doc) ∧
    (∀ k, doc.lookup k = some none → k ∉ renderedSectionKeys doc) := by
  refine ⟨?_, ?_, ?_⟩
  · intro k sec d hlk hpre hdata _hne
    unfold renderedSectionKeys
    rw [List.mem_filter, mem_sectionKeyOrder]
    refine ⟨⟨lookup_mem_keys doc k (some sec) hlk, hpre⟩, ?_⟩
    rw [hlk]
    show sec.data.isSome = true
    rw [hdata]
    rfl
  · intro k sec hlk hdata hmem
    unfold renderedSectionKeys at hmem
    rw [List.mem_filter] at hmem
    rw [hlk] at hmem
    have h2 : sec.data.isSome = true := hmem.2
    rw [hdata] at h2
    simp at h2
  · intro k hlk hmem
    unfold renderedSectionKeys at hmem
    rw [List.mem_filter] at hmem
    rw [hlk] at hmem
    have h2 : false = true := hmem.2
    simp at h2

/-- Closed instance of C4: in a concrete two-section document, the section
with present non-empty `data` is rendered and the section with a missing
`data` field is skipped. -/
theorem renderedSections_spec_witness :
    "Section1" ∈ renderedSectionKeys
      [("Section1", some ⟨"Identification",
          some [("Product Identifier", Value.vstr "Ethanol")], none, none⟩),
       ("Section2", some ⟨"First Aid", none, none, none⟩)] ∧
    "Section2" ∉ renderedSectionKeys
      [("Section1", some ⟨"Identification",
          some [("Product Identifier", Value.vstr "Ethanol")], none, none⟩),
       ("Section2", some ⟨"First Aid", none, none, none⟩)] := by
  constructor
  · exact (renderedSections_spec _).1 "Section1"
      ⟨"Identification", some [("Product Identifier", Value.vstr "Ethanol")],
        none, none⟩
      [("Product Identifier", Value.vstr "Ethanol")]
      rfl (by decide) rfl (List.cons_ne_nil _ _)
  · exact (renderedSections_spec _).2.1 "Section2"
      ⟨"First Aid", none, none, none⟩ rfl rfl

/-- The validation state carried by `SDSGenerator`: the JSON body of the last
completed `/api/validate` response or the locally built failure object.
`valid` is `Option Bool` because the body is loosely typed: only an explicit
`false` is the negative case the disable logic tests
(`validation?.valid === false`). -/
structure ValidationResult where
  valid : Option Bool
  error : Option String := none

/-- The component state of `SDSGenerator` touched by the generation flow. -/
structure GenState where
  smiles : String
  sds : Option Value
  loading : Bool
  error : String
  validation : Option ValidationResult

/-- The disabled condition of the Generate button:
`loading || !smiles.trim() || validation?.valid === false`. -/
def generateDisabled (st : GenState) : Bool :=
  st.loading || decide (jsTrim st.smiles = "") ||
    (match st.validation with
     | some v => decide (v.valid = some false)
     | none => false)

/-- The error body of a non-2xx generation response, as consumed by
`response.json().catch(() => ({}))`: either the body failed to parse (the
catch yields `{}`), or it parsed and its `error` field is absent or holds a
string. -/
inductive ErrBody where
  | parseFailed : ErrBody
  | parsed : Option String → ErrBody

/-- The message thrown for a non-2xx response by `generateSDS`:
`errorData.error || `Server error: ${response.status}``.  The fallback fires
when the body did not parse, when the `error` field is absent, and when it is
the empty string (the JS falsy cases). -/
def errMessage (status : Nat) (b : ErrBody) : String :=
  match b with
  | ErrBody.parseFailed => "Server error: " ++ toString status
  | ErrBody.parsed none => "Server error: " ++ toString status
  | ErrBody.parsed (some e) =>
      if e = "" then "Server error: " ++ toString status else e

/-- The message thrown for a non-ok response by the legacy client in
`handleSubmit` (`SDSForm.js`): `err.error` with the fixed fallback
`Failed to fetch SDS`.  Its
fallback is a fixed string that never mentions the status code. -/
def handleSubmitErrMessage (b : ErrBody) : String :=
  match b with
  | ErrBody.parseFailed => "Failed to fetch SDS"
  | ErrBody.parsed none => "Failed to fetch SDS"
  | ErrBody.parsed (some e) => if e = "" then "Failed to fetch SDS" else e

/-- True when some character of `s` is a decimal digit; a message with no
digit cannot contain a rendering of any status code. -/
def containsDigit (s : String) : Bool := s.data.any Char.isDigit

/-- The outcome of the network part of one generation request.  `netError`
models a rejected fetch with its message; `response` models an HTTP
response: the `ok` flag, the status, the error body (consulted when not ok)
and the parsed JSON body of the ok path (`Except.error` carries the message
of a body whose parsing throws). -/
inductive GenOutcome where
  | netError : String → GenOutcome
  | response : Bool → Nat → ErrBody → Except String Value → GenOutcome

/-- Whether `generateSDS` reaches its catch block for this outcome. -/
def genFails : GenOutcome → Bool
  | GenOutcome.netError _ => true
  | GenOutcome.response ok _ _ body =>
      !ok || (match body with
              | Except.error _ => true
              | Except.ok _ => false)

/-- The synchronous prefix of `generateSDS` once the guard passes:
set loading to true, clear the error message, clear `sds`. -/
def startGenerate (st : GenState) : GenState :=
  { st with loading := true, error := "", sds := none }

/-- The continuation of `generateSDS` after the fetch settles, covering the
try/catch/finally of the source: a non-ok response throws `errMessage`; an ok
response either stores the parsed body in `sds` or, if parsing throws,
reaches the catch; the catch sets `error` and clears `sds`; the finally
clears `loading`. -/
def finishGenerate (st : GenState) : GenOutcome → GenState
  | GenOutcome.netError m =>
      { st with error := m, sds := none, loading := false }
  | GenOutcome.response ok status errBody body =>
      if ok then
        match body with
        | Except.ok v => { st with sds := some v, loading := false }
        | Except.error m =>
            { st with error := m, sds := none, loading := false }
      else
        { st with error := errMessage status errBody, sds := none,
                  loading := false }

/-- The whole `generateSDS` action for one click and one network outcome.
The empty-input guard returns early with a local message and no network
request; the boolean of the result reports whether a request was issued.
Otherwise the state evolves through `startGenerate` and `finishGenerate`. -/
def runGenerateSDS (st : GenState) (o : GenOutcome) : GenState × Bool :=
  if jsTrim st.smiles = "" then
    ({ st with error := "Please enter a SMILES string" }, false)
  else
    (finishGenerate (startGenerate st) o, true)

/-- C5: with empty or whitespace-only input, the generation action issues no
network request and only sets the local "Please enter a SMILES string"
message (leaving the displayed report untouched); and the Generate button is
disabled whenever the trimmed input is empty, a request is in flight, or the
last validation result is explicitly negative (`valid === false`). -/
theorem generate_empty_guard (st : GenState) (o : GenOutcome) :
    (jsTrim st.smiles = "" →
      (runGenerateSDS st o).2 = false ∧
      (runGenerateSDS st o).1.error = "Please enter a SMILES string" ∧
      (runGenerateSDS st o).1.sds = st.sds ∧
      (runGenerateSDS st o).1.loading = st.loading ∧
      (runGenerateSDS st o).1.validation = st.validation) ∧
    ((jsTrim st.smiles = "" ∨ st.loading = true ∨
        (∃ v, st.validation = some v ∧ v.valid = some false)) →
      generateDisabled st = true) := by
  constructor
  · intro h
    unfold runGenerateSDS
    rw [if_pos h]
    exact ⟨rfl, rfl, rfl, rfl, rfl⟩
  · intro h
    unfold generateDisabled
    rcases h with h | h | ⟨v, hv, hvf⟩
    · simp [h]
    · simp [h]
    · rw [hv]
      simp [hvf]

/-- Closed instance of C5: with the whitespace-only input `"   "` no request
is issued, the local message is set, and the button is disabled. -/
theorem generate_empty_guard_witness :
    (runGenerateSDS ⟨"   ", none, false, "", none⟩
        (GenOutcome.netError "boom")).2 = false ∧
    (runGenerateSDS ⟨"   ", none, false, "", none⟩
        (GenOutcome.netError "boom")).1.error =
      "Please enter a SMILES string" ∧
    generateDisabled ⟨"   ", none, false, "", none⟩ = true :=
  ⟨((generate_empty_guard ⟨"   ", none, false, "", none⟩
      (GenOutcome.netError "boom")).1 (by decide)).1,
   ((generate_empty_guard ⟨"   ", none, false, "", none⟩
      (GenOutcome.netError "boom")).1 (by decide)).2.1,
   (generate_empty_guard ⟨"   ", none, false, "", none⟩
      (GenOutcome.netError "boom")).2 (Or.inl (by decide))⟩

/-- C9: a failed generation discards the previously displayed report: `sds`
is cleared to `none` when the request starts, and after every failing outcome
(network error, non-2xx response, or an ok response whose body fails to
parse) the final state still has `sds = none`, whatever report was shown
before. -/
theorem failed_generate_clears_report (st : GenState) (o : GenOutcome)
    (hne : jsTrim st.smiles ≠ "") (hfail : genFails o = true) :
    (startGenerate st).sds = none ∧
    (runGenerateSDS st o).2 = true ∧
    (runGenerateSDS st o).1.sds = none := by
  refine ⟨rfl, ?_, ?_⟩
  · unfold runGenerateSDS
    rw [if_neg hne]
  · unfold runGenerateSDS
    rw [if_neg hne]
    cases o with
    | netError m => rfl
    | response ok status errBody body =>
      cases ok with
      | false => rfl
      | true =>
        cases body with
        | error m => rfl
        | ok v => simp [genFails] at hfail

/-- Closed instance of C9: a previously displayed report is gone after a 500
response to a non-empty query. -/
theorem failed_generate_clears_report_witness :
    (runGenerateSDS ⟨"CCO", some (Value.vstr "old report"), false, "", none⟩
        (GenOutcome.response false 500 ErrBody.parseFailed
          (Except.ok Value.vnull))).1.sds = none :=
  (failed_generate_clears_report
    ⟨"CCO", some (Value.vstr "old report"), false, "", none⟩
    (GenOutcome.response false 500 ErrBody.parseFailed (Except.ok Value.vnull))
    (by decide) rfl).2.2

/-- C6 counterexample: the claim says the client falls back to a generic
message containing the response status code when the error body cannot be
parsed, but the legacy client (`handleSubmit` in `SDSForm.js`, cited by the
claim) falls back to the fixed message `Failed to fetch SDS`, which contains
no digit at all and hence not the status code of any response (e.g. 500),
unlike the fallback of the primary client. -/
theorem handleSubmit_fallback_no_status :
    handleSubmitErrMessage ErrBody.parseFailed = "Failed to fetch SDS" ∧
    containsDigit (handleSubmitErrMessage ErrBody.parseFailed) = false ∧
    containsDigit (errMessage 500 ErrBody.parseFailed) = true := by
  refine ⟨rfl, by decide, by decide⟩

/-- C6 (amended): for every non-2xx generation response, both clients surface
the non-empty `error` string parsed from the JSON error body; when the body
fails to parse, the primary client falls back to a generic message carrying
the response status code, while the legacy client falls back to the fixed
message `Failed to fetch SDS`, which does not contain the status code. -/
theorem errMessage_spec (status : Nat) (e : String) (he : e ≠ "") :
    errMessage status (ErrBody.parsed (some e)) = e ∧
    handleSubmitErrMessage (ErrBody.parsed (some e)) = e ∧
    errMessage status ErrBody.parseFailed =
      "Server error: " ++ toString status ∧
    handleSubmitErrMessage ErrBody.parseFailed = "Failed to fetch SDS" := by
  refine ⟨?_, ?_, rfl, rfl⟩ <;>
    simp [errMessage, handleSubmitErrMessage, he]

/-- Closed instance of C6 (amended) at status 500 with a non-empty parsed
message and with a parse failure. -/
theorem errMessage_spec_witness :
    errMessage 500 (ErrBody.parsed (some "invalid SMILES")) =
      "invalid SMILES" ∧
    errMessage 500 ErrBody.parseFailed = "Server error: " ++ toString 500 :=
  ⟨(errMessage_spec 500 "invalid SMILES" (by decide)).1,
   (errMessage_spec 500 "invalid SMILES" (by decide)).2.2.1⟩

/-- The expand/collapse toggle of `SDSDisplay`: delete the key when present,
insert it when absent.  The source copies the `Set` and mutates the copy;
the functional update of a `Finset` models exactly that. -/
def toggleSection (s : Finset String) (k : String) : Finset String :=
  if k ∈ s then s.erase k else insert k s

/-- C7: for every section key and every expand-state set, toggling the key
twice returns the set to its original membership for that key — in fact the
double toggle restores the whole set. -/
theorem toggleSection_involutive (s : Finset String) (k : String) :
    (k ∈ toggleSection (toggleSection s k) k ↔ k ∈ s) ∧
    toggleSection (toggleSection s k) k = s := by
  by_cases h : k ∈ s
  · constructor
    · simp [toggleSection, h, Finset.not_mem_erase]
    · simp [toggleSection, h, Finset.not_mem_erase, Finset.insert_erase]
  · constructor
    · simp [toggleSection, h, Finset.mem_insert_self, Finset.not_mem_erase]
    · simp [toggleSection, h, Finset.mem_insert_self, Finset.erase_insert]
